import Mathlib

/-!
Verification of the `ii_speed` RPC-over-queue worker.

The development shallowly embeds the parts of the Python source the claims
depend on:

* `rpc/dc.py` — the `Response` dataclass and its wire encoding;
* `speed/execute_rpc_action.py` and `app/__init__.py` — the `Result`
  dataclass, the `execute_report` dispatch and `MainApp.execute_rpc_action`;
* `ya_disk/accessor.py` — `make_file_path` and the collision/retry loop of
  `upload`;
* `rpc/rpc_server.py` — the per-message body of `RPCServer.start` and the
  consume loop.

Python exceptions are embedded as a list of string arguments (`Exc`); JSON
payloads are embedded at the level of the JSON value tree (`Json`): the
`json.dumps`/`json.loads` byte serialization is the Python standard library
and is treated as a faithful external collaborator.  External collaborators
(the HTTP report fetch, the Yandex-disk client) are parameters of the
embedded functions: each claim quantifies over their outcomes.
-/

namespace RpcSpeed

/-- A Python exception value, reduced to its `args` tuple.  Arguments are
strings (every exception relevant to the claims carries string arguments). -/
structure Exc where
  args : List String
deriving DecidableEq, Repr

/-- Python `str(e)` for an exception `e`: the empty string when `args` is
empty, the sole argument when there is exactly one, and the tuple repr
otherwise. -/
def strOfExc (e : Exc) : String :=
  match e.args with
  | [] => ""
  | [a] => a
  | l => "(" ++ String.intercalate ", " (l.map (fun a => "\x27" ++ a ++ "\x27")) ++ ")"

/-- A JSON value: only the constructors the wire contract uses. -/
inductive Json where
  | str (s : String)
  | arr (xs : List Json)
  | obj (fields : List (String × Json))
deriving Repr

/-- Key list of a JSON object (field names, in order); `[]` on non-objects. -/
def jsonKeys : Json → List String
  | Json.obj fields => fields.map Prod.fst
  | _ => []

/-- The `Response` dataclass of `rpc/dc.py`: fields `status`, `message`,
`result`, with the dataclass defaults.  The `result` list carries the
artifact-reference strings of the envelope contract. -/
structure Response where
  status : String := "OK"
  message : String := "Успешно"
  result : List String := []
deriving DecidableEq, Repr

/-- `Response.to_dict` (via `dataclasses.asdict`): the field dictionary, in
declaration order.  `Response.to_bytes` is `json.dumps` of this value. -/
def Response.to_dict (r : Response) : Json :=
  Json.obj [("status", Json.str r.status), ("message", Json.str r.message),
            ("result", Json.arr (r.result.map Json.str))]

/-- The `Result` dataclass of `speed/execute_rpc_action.py`, reused by
`MainApp.execute_rpc_action`: fields `status`, `course`, `result`,
`message`, in that declaration order. -/
structure Result where
  status : String := "OK"
  course : String := ""
  result : List String := []
  message : String := "Успешно"
deriving DecidableEq, Repr

/-- `Result.to_dict` (via `dataclasses.asdict`): the field dictionary, in
declaration order. -/
def Result.to_dict (r : Result) : Json :=
  Json.obj [("status", Json.str r.status), ("course", Json.str r.course),
            ("result", Json.arr (r.result.map Json.str)), ("message", Json.str r.message)]

/-- The `SpeedReport` collaborator (`speed/accessor.py`), reduced to the five
report methods `execute_report` dispatches to.  Each either returns a report
file (embedded as an opaque token) or raises. -/
structure SpeedReport where
  get_report : Option String → Option String → Except Exc String
  get_report_last_week : Except Exc String
  get_report_month : Except Exc String
  get_report_last_month : Except Exc String
  get_report_current_day : Except Exc String

/-- The operations `execute_report` actually dispatches on (the `if`/`elif`
chain; note the `REPORT_TYPE` literal also names `"week"`, which the chain
does not handle and which therefore falls to the `else` branch). -/
def registeredOps : List String := ["date_range", "last_week", "month", "last_month", "day"]

/-- `execute_report` of `speed/execute_rpc_action.py`: dispatch on
`report_type`; any other operation raises `Exception("Неизвестный тип отчёта")`. -/
def execute_report (report_service : SpeedReport) (report_type : String)
    (start_date end_date : Option String) : Except Exc String :=
  if report_type = "date_range" then report_service.get_report start_date end_date
  else if report_type = "last_week" then report_service.get_report_last_week
  else if report_type = "month" then report_service.get_report_month
  else if report_type = "last_month" then report_service.get_report_last_month
  else if report_type = "day" then report_service.get_report_current_day
  else Except.error ⟨["Неизвестный тип отчёта"]⟩

/-- The Yandex-disk collaborator, reduced to the one method
`MainApp.execute_rpc_action` calls: upload the produced file and return a
public download link, or raise. -/
structure YaDisk where
  upload_and_get_public_download_link : String → Except Exc String

/-- `MainApp.execute_rpc_action` of `app/__init__.py`.  The `try` block
fetches the report and uploads it; on success the returned JSON text is
`json.dumps` of `Result(status="OK", course="", result=[link],
message="Успешно")`.  The `except Exception` handler builds the `ERROR`
`Result` with `message=str(ex.args[0])`; when the caught exception has an
empty `args` tuple, `ex.args[0]` itself raises
`IndexError("tuple index out of range")`, which escapes the function. -/
def execute_rpc_action (speed_report : SpeedReport) (ya_disk : YaDisk)
    (report_type : String) (start_date end_date : Option String) : Except Exc Json :=
  let body : Except Exc String := do
    let file ← execute_report speed_report report_type start_date end_date
    ya_disk.upload_and_get_public_download_link file
  match body with
  | Except.ok link =>
      Except.ok (Result.to_dict { status := "OK", course := "", result := [link], message := "Успешно" })
  | Except.error ex =>
      match ex.args with
      | [] => Except.error ⟨["tuple index out of range"]⟩
      | a :: _ =>
          Except.ok (Result.to_dict { status := "ERROR", course := "course_type", result := [], message := a })

/-- Python `str.split(sep)` on character lists: splits at every occurrence of
`sep`, keeping empty pieces; the result is never empty. -/
def pySplit (sep : Char) : List Char → List (List Char)
  | [] => [[]]
  | c :: cs =>
    match pySplit sep cs with
    | [] => [[]]
    | h :: t => if c = sep then [] :: h :: t else (c :: h) :: t

/-- Python `sep.join(pieces)` on character lists. -/
def pyJoin (sep : Char) : List (List Char) → List Char
  | [] => []
  | [x] => x
  | x :: xs => x ++ sep :: pyJoin sep xs

/-- `YaDiskAccessor.make_file_path` of `ya_disk/accessor.py`, on character
lists: split the file name on `"."`, append `"(number)"` to the first piece
when `number` is non-empty (Python string truthiness), re-append the joined
remaining pieces behind a `"."` when there are any, and prefix the base
directory joined by `"/"`. -/
def make_file_path (ya_base_dir upload_file_name number : List Char) : List Char :=
  match pySplit '.' upload_file_name with
  | [] => []
  | name :: suf =>
    let name := name ++ (if number ≠ [] then '(' :: (number ++ [')']) else [])
    let name := name ++ (if suf ≠ [] then '.' :: pyJoin '.' suf else [])
    pyJoin '/' [ya_base_dir, name]

/-- Decimal rendering of a natural number, fuel-driven so that it computes
by reduction; `fuel = n + 1` always suffices since the argument shrinks by a
factor of ten each step. -/
def decimalCharsAux : Nat → Nat → List Char
  | 0, _ => []
  | fuel + 1, n =>
    if n < 10 then [Nat.digitChar n]
    else decimalCharsAux fuel (n / 10) ++ [Nat.digitChar (n % 10)]

/-- Decimal rendering of a natural number (Python `str(int)`). -/
def decimalChars (n : Nat) : List Char :=
  decimalCharsAux (n + 1) n

/-- The second argument `upload` passes to `make_file_path` on attempt
`number`: `str(number) if number else ""`. -/
def numberArg (number : Nat) : List Char :=
  if number = 0 then [] else decimalChars number

/-- One run of the `while number < self.settings.ya_attempt_count` loop of
`YaDiskAccessor.upload`, starting at attempt `number` with
`fuel = ya_attempt_count - number` iterations left.  `path_exists` is the
store collaborator: `true` means `client.upload` raises `PathExistsError`
for that path, `false` means the upload succeeds (the returned link object
is embedded as the uploaded path).  Other client exceptions are not caught
by the loop and are outside this model.  When the loop exhausts its
attempts it raises `ValueError("Please rename upload file")`. -/
def uploadGo (path_exists : List Char → Bool) (ya_base_dir file_name : List Char) :
    Nat → Nat → Except Exc (List Char)
  | _, 0 => Except.error ⟨["Please rename upload file"]⟩
  | number, fuel + 1 =>
    let upload_file := make_file_path ya_base_dir file_name (numberArg number)
    if path_exists upload_file then
      uploadGo path_exists ya_base_dir file_name (number + 1) fuel
    else
      Except.ok upload_file

/-- `YaDiskAccessor.upload`: run the attempt loop from `number = 0` with
`ya_attempt_count` iterations available. -/
def upload (path_exists : List Char → Bool) (ya_base_dir file_name : List Char)
    (ya_attempt_count : Nat) : Except Exc (List Char) :=
  uploadGo path_exists ya_base_dir file_name 0 ya_attempt_count

/-- An inbound queue message as the consume loop of `RPCServer.start` sees
it: the `reply_to` and `correlation_id` metadata, the repr text interpolated
into the assert message `f"Bad message ..."`, and the outcome of
`self._execute_action(message.body)` on its body — either the JSON value of
the returned reply text, or the exception raised while decoding the body or
running the action. -/
structure IncomingMessage where
  reply_to : Option String
  correlation_id : Option String
  msgRepr : String
  execOutcome : Except Exc Json

/-- The acknowledgement decision `message.process(requeue=False)` delivers
for one message: `ack` on normal exit of the block, `rejectNoRequeue` when
an exception escapes the block. -/
inductive AckDecision where
  | ack
  | rejectNoRequeue
deriving DecidableEq, Repr

/-- One invocation of `self._reply_to` (hence of `exchange.publish`): the
routing key is `message.reply_to`, the correlation id is copied from the
message, and the body is the published reply payload. -/
structure PubCall where
  routing_key : Option String
  correlation_id : Option String
  body : Json

/-- Everything one iteration of the consume loop does to one message: the
acknowledgement decisions made, the publish invocations issued, and the
exception (if any) escaping the iteration and the loop. -/
structure MsgOutcome where
  ackDecisions : List AckDecision
  pubCalls : List PubCall
  raised : Option Exc

/-- The `try` block of the loop body: `assert message.reply_to is not None`
(raising `AssertionError(f"Bad message ...")` when it is `None`), then
`self._execute_action(message.body)`. -/
def tryBlock (message : IncomingMessage) : Except Exc Json :=
  match message.reply_to with
  | none => Except.error ⟨["Bad message " ++ message.msgRepr]⟩
  | some _ => message.execOutcome

/-- One iteration of the consume loop of `RPCServer.start` on one message.
`publishRaises` is the publish collaborator: `none` means `exchange.publish`
returns normally, `some e` means it raises `e`.  When the `try` block raises,
the handler logs and publishes `Response(status="ERROR",
message=str(e)).to_bytes()`; otherwise the loop publishes the action's reply
text.  In both cases exactly one publish is invoked — also when `reply_to`
is `None` (the handler still calls `self._reply_to` with the `None` routing
key).  `message.process(requeue=False)` then acks on normal exit and rejects
without requeue when the publish raised, letting that exception escape the
loop. -/
def processMessage (message : IncomingMessage) (publishRaises : Option Exc) : MsgOutcome :=
  let published : Json :=
    match tryBlock message with
    | Except.error e => Response.to_dict { status := "ERROR", message := strOfExc e, result := [] }
    | Except.ok response => response
  let call : PubCall := ⟨message.reply_to, message.correlation_id, published⟩
  match publishRaises with
  | some e => ⟨[AckDecision.rejectNoRequeue], [call], some e⟩
  | none => ⟨[AckDecision.ack], [call], none⟩

/-- Result of running the consume loop on a finite inbound sequence: the
messages actually dequeued, each with its outcome, and the exception (if
any) that escaped the loop.  After the loop the `finally` closes the
connection; `asyncio.CancelledError` is not an `Exception` and is outside
`Exc`. -/
structure LoopResult where
  processed : List (IncomingMessage × MsgOutcome)
  raised : Option Exc

/-- The `async for message in queue_iterator` loop of `RPCServer.start` over
a finite inbound sequence, each message paired with its publish-collaborator
outcome.  An exception escaping an iteration terminates the loop: later
messages are never dequeued. -/
def consumeLoop : List (IncomingMessage × Option Exc) → LoopResult
  | [] => ⟨[], none⟩
  | (m, pr) :: rest =>
    let o := processMessage m pr
    match o.raised with
    | some e => ⟨[(m, o)], some e⟩
    | none =>
      let r := consumeLoop rest
      ⟨(m, o) :: r.processed, r.raised⟩

/-- Total number of `exchange.publish` invocations over a loop run. -/
def totalPubCalls (r : LoopResult) : Nat :=
  (r.processed.map (fun p => p.2.pubCalls.length)).sum

/-- Modelled from the spec: the repository has no decoder for the reply wire
form (callers live outside this repository), so decoding follows §6 of the
spec — a JSON object whose `status` key is `"OK"` or `"ERROR"`, whose
`message` key is a string and whose `result` key is an array of strings
decodes to the corresponding `Response`; anything else is rejected. -/
def decodeStrings : List Json → Option (List String)
  | [] => some []
  | Json.str s :: rest => (decodeStrings rest).map (fun l => s :: l)
  | _ => none

/-- Modelled from the spec: decoder for the `Response` envelope wire value
(see `decodeStrings`). -/
def decodeResponse (j : Json) : Option Response :=
  match j with
  | Json.obj fields =>
    match fields.lookup "status", fields.lookup "message", fields.lookup "result" with
    | some (Json.str s), some (Json.str m), some (Json.arr xs) =>
      if s = "OK" ∨ s = "ERROR" then
        (decodeStrings xs).map (fun l => { status := s, message := m, result := l })
      else none
    | _, _, _ => none
  | _ => none

/-! Concrete fixtures used to evaluate the embedded code on specific inputs. -/

/-- An inbound message carrying no `reply_to`. -/
def noReplyToMsg : IncomingMessage :=
  ⟨none, some "cid-1", "msg-1", Except.ok (Json.str "unused")⟩

/-- A well-formed inbound message whose action succeeds. -/
def okMsg1 : IncomingMessage :=
  ⟨some "amq.gen-reply-1", some "cid-a", "m1", Except.ok (Json.str "r1")⟩

/-- A second well-formed inbound message whose action succeeds. -/
def okMsg2 : IncomingMessage :=
  ⟨some "amq.gen-reply-2", some "cid-b", "m2", Except.ok (Json.str "r2")⟩

/-- An exception raised by the publish collaborator. -/
def pubFailExc : Exc := ⟨["publish failed"]⟩

/-- A store that reports "name exists" exactly for `disk/r.xlsx` and
`disk/r(1).xlsx` (scenario D of the spec, with attempt bound 2). -/
def collideTwo : List Char → Bool :=
  fun p => p = "disk/r.xlsx".toList || p = "disk/r(1).xlsx".toList

/-- A report service whose current-day report succeeds. -/
def rsDay : SpeedReport :=
  ⟨fun _ _ => Except.error ⟨["unused"]⟩, Except.error ⟨["unused"]⟩,
   Except.error ⟨["unused"]⟩, Except.error ⟨["unused"]⟩,
   Except.ok "report_from 2026-10-12.xlsx"⟩

/-- A disk collaborator returning a fixed public link. -/
def ydLink : YaDisk := ⟨fun _ => Except.ok "https://disk/x.xlsx"⟩

/-- A report service every method of which raises an exception with an empty
`args` tuple. -/
def rsArgless : SpeedReport :=
  ⟨fun _ _ => Except.error ⟨[]⟩, Except.error ⟨[]⟩, Except.error ⟨[]⟩,
   Except.error ⟨[]⟩, Except.error ⟨[]⟩⟩

/-- A disk collaborator raising an exception whose only argument is the
empty string. -/
def ydEmptyArg : YaDisk := ⟨fun _ => Except.error ⟨[""]⟩⟩

/-- A disk collaborator raising an exception with a non-empty message. -/
def ydBoom : YaDisk := ⟨fun _ => Except.error ⟨["boom"]⟩⟩

/-! Lemmas about the split/join helpers of `make_file_path`. -/

theorem pySplit_ne_nil (sep : Char) (l : List Char) : pySplit sep l ≠ [] := by
  cases l with
  | nil => simp [pySplit]
  | cons c cs =>
    simp only [pySplit]
    split
    · simp
    · split <;> simp

theorem pySplit_not_mem (sep : Char) (a : List Char) (ha : sep ∉ a) :
    pySplit sep a = [a] := by
  induction a with
  | nil => rfl
  | cons c cs ih =>
    have hc : c ≠ sep := fun h => ha (h ▸ List.mem_cons_self c cs)
    have hcs : sep ∉ cs := fun h => ha (List.mem_cons_of_mem c h)
    simp [pySplit, ih hcs, hc]

theorem pySplit_append (sep : Char) (a b : List Char) (ha : sep ∉ a) :
    pySplit sep (a ++ sep :: b) = a :: pySplit sep b := by
  induction a with
  | nil =>
    simp only [List.nil_append, pySplit]
    cases h : pySplit sep b with
    | nil => exact absurd h (pySplit_ne_nil sep b)
    | cons hd tl => simp
  | cons c cs ih =>
    have hc : c ≠ sep := fun h => ha (h ▸ List.mem_cons_self c cs)
    have hcs : sep ∉ cs := fun h => ha (List.mem_cons_of_mem c h)
    rw [List.cons_append]
    simp only [pySplit]
    rw [ih hcs]
    simp [hc]

theorem pyJoin_cons_cons (sep c : Char) (h : List Char) (t : List (List Char)) :
    pyJoin sep ((c :: h) :: t) = c :: pyJoin sep (h :: t) := by
  cases t <;> simp [pyJoin]

theorem pyJoin_pySplit (sep : Char) (l : List Char) :
    pyJoin sep (pySplit sep l) = l := by
  induction l with
  | nil => rfl
  | cons c cs ih =>
    simp only [pySplit]
    split
    next heq => exact absurd heq (pySplit_ne_nil sep cs)
    next hd tl heq =>
      rw [heq] at ih
      by_cases hc : c = sep
      · subst hc
        rw [if_pos rfl]
        simp [pyJoin, ih]
      · rw [if_neg hc, pyJoin_cons_cons, ih]

theorem make_file_path_dotted (base stem rest number : List Char)
    (hstem : '.' ∉ stem) :
    make_file_path base (stem ++ '.' :: rest) number
      = base ++ '/' ::
          (stem ++ (if number ≠ [] then '(' :: (number ++ [')']) else [])
                ++ '.' :: rest) := by
  simp only [make_file_path, pySplit_append '.' stem rest hstem]
  have hsuf : pySplit '.' rest ≠ [] := pySplit_ne_nil '.' rest
  simp only [if_pos hsuf, pyJoin_pySplit, pyJoin]

theorem decimalCharsAux_ne_nil (fuel n : Nat) :
    decimalCharsAux (fuel + 1) n ≠ [] := by
  simp only [decimalCharsAux]
  split <;> simp

theorem decimalChars_ne_nil (n : Nat) : decimalChars n ≠ [] :=
  decimalCharsAux_ne_nil n n

/-- C10: for a file name with a dot and a positive attempt number, the path
is the base directory, a slash, the stem before the first dot, the
parenthesised number, a dot, and the untouched remainder of the name; with
an empty number string the name goes under the base directory unchanged. -/
theorem make_file_path_inserts_number (base stem rest : List Char) (n : Nat)
    (hstem : '.' ∉ stem) (hn : 0 < n) :
    make_file_path base (stem ++ '.' :: rest) (numberArg n)
      = base ++ '/' :: (stem ++ '(' :: (decimalChars n ++ [')']) ++ '.' :: rest) ∧
    make_file_path base (stem ++ '.' :: rest) []
      = base ++ '/' :: (stem ++ '.' :: rest) := by
  constructor
  · have hnum : numberArg n = decimalChars n := by
      simp [numberArg, Nat.pos_iff_ne_zero.mp hn]
    rw [hnum, make_file_path_dotted base stem rest _ hstem,
        if_pos (decimalChars_ne_nil n)]
  · rw [make_file_path_dotted base stem rest [] hstem]
    simp

/-- Witness for C10 at a concrete input: name `r.xlsx`, attempt number 2,
base directory `disk`. -/
theorem make_file_path_inserts_number_witness :
    make_file_path "disk".toList ("r".toList ++ '.' :: "xlsx".toList) (numberArg 2)
      = "disk".toList ++ '/' :: ("r".toList ++ '(' :: (decimalChars 2 ++ [')']) ++ '.' :: "xlsx".toList) ∧
    make_file_path "disk".toList ("r".toList ++ '.' :: "xlsx".toList) []
      = "disk".toList ++ '/' :: ("r".toList ++ '.' :: "xlsx".toList) :=
  make_file_path_inserts_number "disk".toList "r".toList "xlsx".toList 2
    (by decide) (by decide)

/-! Lemmas about the upload attempt loop. -/

theorem uploadGo_ok (pe : List Char → Bool) (base name : List Char) (K : Nat)
    (hsucc : pe (make_file_path base name (numberArg (K + 1))) = false) :
    ∀ fuel number,
      (∀ i, number ≤ i → i ≤ K → pe (make_file_path base name (numberArg i)) = true) →
      number ≤ K + 1 → K + 1 - number < fuel →
      uploadGo pe base name number fuel
        = Except.ok (make_file_path base name (numberArg (K + 1))) := by
  intro fuel
  induction fuel with
  | zero => intro number _ _ hlt; omega
  | succ f ih =>
    intro number hcoll hle hlt
    simp only [uploadGo]
    by_cases hpe : pe (make_file_path base name (numberArg number)) = true
    · rw [if_pos hpe]
      have hne : number ≠ K + 1 := by
        intro h
        rw [h, hsucc] at hpe
        exact Bool.false_ne_true hpe
      have hnum : number ≤ K := by omega
      exact ih (number + 1) (fun i h1 h2 => hcoll i (by omega) h2) (by omega) (by omega)
    · have hfalse : pe (make_file_path base name (numberArg number)) = false :=
        Bool.eq_false_iff.mpr hpe
      rw [if_neg hpe]
      have heq : number = K + 1 := by
        rcases Nat.lt_or_ge number (K + 1) with h | h
        · exact absurd (hcoll number le_rfl (by omega)) hpe
        · omega
      rw [heq]

theorem uploadGo_exhaust (pe : List Char → Bool) (base name : List Char) :
    ∀ fuel number,
      (∀ i, number ≤ i → i < number + fuel → pe (make_file_path base name (numberArg i)) = true) →
      uploadGo pe base name number fuel
        = Except.error ⟨["Please rename upload file"]⟩ := by
  intro fuel
  induction fuel with
  | zero => intro number _; rfl
  | succ f ih =>
    intro number hcoll
    simp only [uploadGo]
    rw [if_pos (hcoll number le_rfl (by omega))]
    exact ih (number + 1) (fun i h1 h2 => hcoll i (by omega) (by omega))

/-- C6 (amended): when the desired name and the suffixed alternatives up to
`(K)` all collide and the store accepts the `(K+1)` name, `upload` returns
the path with the `(K+1)` suffix provided the succeeding attempt index
`K + 1` is still below the attempt bound (the claim's weaker proviso `K`
below the bound admits `K = bound - 1`, where the loop instead exhausts its
attempts); when every attempt up to the bound collides, `upload` raises the
terminal `ValueError("Please rename upload file")` instead of overwriting. -/
theorem upload_collision_policy (pe : List Char → Bool) (base name : List Char)
    (count : Nat) :
    (∀ K, (∀ i, i ≤ K → pe (make_file_path base name (numberArg i)) = true) →
      pe (make_file_path base name (numberArg (K + 1))) = false →
      K + 1 < count →
      upload pe base name count
        = Except.ok (make_file_path base name (numberArg (K + 1)))) ∧
    ((∀ i, i < count → pe (make_file_path base name (numberArg i)) = true) →
      upload pe base name count = Except.error ⟨["Please rename upload file"]⟩) := by
  constructor
  · intro K hcoll hsucc hlt
    exact uploadGo_ok pe base name K hsucc count 0 (fun i _ h2 => hcoll i h2)
      (by omega) (by omega)
  · intro hall
    exact uploadGo_exhaust pe base name count 0 (fun i _ h2 => hall i (by omega))

/-- Witness for C6 (amended) at concrete inputs: with attempt bound 3, a
store colliding on `disk/r.xlsx` and `disk/r(1).xlsx` yields
`disk/r(2).xlsx` (scenario D); a store colliding on every name up to the
bound makes `upload` raise. -/
theorem upload_collision_policy_witness :
    upload collideTwo "disk".toList "r.xlsx".toList 3
      = Except.ok (make_file_path "disk".toList "r.xlsx".toList (numberArg 2)) ∧
    upload (fun _ => true) "disk".toList "r.xlsx".toList 3
      = Except.error ⟨["Please rename upload file"]⟩ :=
  ⟨(upload_collision_policy collideTwo "disk".toList "r.xlsx".toList 3).1 1
      (by decide) (by decide) (by decide),
   (upload_collision_policy (fun _ => true) "disk".toList "r.xlsx".toList 3).2
      (fun i _ => rfl)⟩

/-- C6 counterexample: with attempt bound 2 and `K = 1` (which is below the
bound, as the claim requires), the store collides on `disk/r.xlsx` and
`disk/r(1).xlsx` and would accept `disk/r(2).xlsx`, yet `upload` never tries
the `(2)` name: it raises instead of returning the `(2)` reference. -/
theorem upload_collision_policy_counterexample :
    collideTwo (make_file_path "disk".toList "r.xlsx".toList (numberArg 0)) = true ∧
    collideTwo (make_file_path "disk".toList "r.xlsx".toList (numberArg 1)) = true ∧
    collideTwo (make_file_path "disk".toList "r.xlsx".toList (numberArg 2)) = false ∧
    1 + 1 ≤ 2 ∧
    upload collideTwo "disk".toList "r.xlsx".toList 2
      ≠ Except.ok (make_file_path "disk".toList "r.xlsx".toList (numberArg 2)) ∧
    upload collideTwo "disk".toList "r.xlsx".toList 2
      = Except.error ⟨["Please rename upload file"]⟩ := by
  refine ⟨rfl, rfl, rfl, by omega, ?_, rfl⟩
  rw [show upload collideTwo "disk".toList "r.xlsx".toList 2
        = Except.error ⟨["Please rename upload file"]⟩ from rfl]
  simp

/-! Theorems about the consume loop of `RPCServer.start`. -/

theorem processMessage_shape (m : IncomingMessage) (pr : Option Exc) :
    (processMessage m pr).ackDecisions.length = 1 ∧
    (processMessage m pr).pubCalls.length = 1 := by
  cases pr <;> exact ⟨rfl, rfl⟩

/-- C1: over any finite inbound sequence, every successfully dequeued
message gets exactly one acknowledgement decision, the reply publisher is
invoked at most once per inbound message (hence at most `N` times in
total), and it is invoked exactly once — never zero, never more — for every
dequeued message carrying a usable `reply_to`. -/
theorem consume_loop_reply_discipline (msgs : List (IncomingMessage × Option Exc)) :
    (∀ p ∈ (consumeLoop msgs).processed, p.2.ackDecisions.length = 1) ∧
    totalPubCalls (consumeLoop msgs) ≤ msgs.length ∧
    (∀ p ∈ (consumeLoop msgs).processed,
      p.1.reply_to.isSome → p.2.pubCalls.length = 1) := by
  induction msgs with
  | nil => exact ⟨by simp [consumeLoop], by simp [consumeLoop, totalPubCalls], by simp [consumeLoop]⟩
  | cons hd rest ih =>
    obtain ⟨m, pr⟩ := hd
    simp only [consumeLoop]
    cases h : (processMessage m pr).raised with
    | some e =>
      refine ⟨?_, ?_, ?_⟩
      · intro p hp
        simp only [List.mem_singleton] at hp
        rw [hp]
        exact (processMessage_shape m pr).1
      · simp only [totalPubCalls, List.map_cons, List.map_nil, List.sum_cons,
          List.sum_nil, (processMessage_shape m pr).2, List.length_cons]
        omega
      · intro p hp _
        simp only [List.mem_singleton] at hp
        rw [hp]
        exact (processMessage_shape m pr).2
    | none =>
      refine ⟨?_, ?_, ?_⟩
      · intro p hp
        simp only [List.mem_cons] at hp
        rcases hp with rfl | hp
        · exact (processMessage_shape m pr).1
        · exact ih.1 p hp
      · simp only [totalPubCalls, List.map_cons, List.sum_cons,
          (processMessage_shape m pr).2, List.length_cons]
        have := ih.2.1
        simp only [totalPubCalls] at this
        omega
      · intro p hp hsome
        simp only [List.mem_cons] at hp
        rcases hp with rfl | hp
        · exact (processMessage_shape m pr).2
        · exact ih.2.2 p hp hsome

/-- Witness for C1 at a concrete one-message run: the dequeued message with
a usable `reply_to` gets exactly one publish invocation. -/
theorem consume_loop_reply_discipline_witness :
    (processMessage okMsg1 none).pubCalls.length = 1 :=
  (consume_loop_reply_discipline [(okMsg1, none)]).2.2
    (okMsg1, processMessage okMsg1 none) (List.mem_singleton.mpr rfl) rfl

/-- C2 (code evaluated at the failing input): for an inbound message whose
`reply_to` is `None`, the loop body still invokes the reply publisher —
once, with the `None` routing key and an `ERROR` body built from the failed
assert — and then positively acknowledges the message when that publish
returns.  The claim's "no reply publication at all" and "negatively
acknowledged" are both violated. -/
theorem missing_reply_to_still_publishes :
    (processMessage noReplyToMsg none).pubCalls
      = [⟨none, some "cid-1",
          Response.to_dict { status := "ERROR", message := "Bad message msg-1", result := [] }⟩] ∧
    (processMessage noReplyToMsg none).ackDecisions = [AckDecision.ack] ∧
    (processMessage noReplyToMsg none).raised = none :=
  ⟨rfl, rfl, rfl⟩

/-- C3 (amended): an exception raised by the reply publish is not caught by
the per-message handler: the in-flight message is rejected without requeue
and the exception escapes the `async for`, terminating the consume loop —
it does not continue to the next message. -/
theorem publish_failure_terminates_loop (m : IncomingMessage) (e : Exc)
    (rest : List (IncomingMessage × Option Exc)) :
    (consumeLoop ((m, some e) :: rest)).processed = [(m, processMessage m (some e))] ∧
    (consumeLoop ((m, some e) :: rest)).raised = some e ∧
    (processMessage m (some e)).ackDecisions = [AckDecision.rejectNoRequeue] :=
  ⟨rfl, rfl, rfl⟩

/-- C3 counterexample: a two-message run whose first reply publish raises
processes only the first message — the loop does not continue to the second
message, contradicting "the consume loop continues to the next message". -/
theorem publish_failure_counterexample :
    (consumeLoop [(okMsg1, some pubFailExc), (okMsg2, none)]).processed.length = 1 ∧
    (consumeLoop [(okMsg1, some pubFailExc), (okMsg2, none)]).raised = some pubFailExc ∧
    [(okMsg1, some pubFailExc), (okMsg2, none)].length = 2 :=
  ⟨rfl, rfl, rfl⟩

/-! Theorems about the action executor. -/

theorem execute_report_unknown (rs : SpeedReport) (op : String) (sd ed : Option String)
    (hop : op ∉ registeredOps) :
    execute_report rs op sd ed = Except.error ⟨["Неизвестный тип отчёта"]⟩ := by
  simp only [registeredOps, List.mem_cons, List.not_mem_nil, or_false, not_or] at hop
  obtain ⟨h1, h2, h3, h4, h5⟩ := hop
  simp [execute_report, h1, h2, h3, h4, h5]

/-- C5: for every request whose operation is not in the dispatched set, the
executor returns (rather than raises) the `ERROR` envelope with the fixed
message `"Неизвестный тип отчёта"` and an empty result list. -/
theorem unknown_operation_error (rs : SpeedReport) (yd : YaDisk) (op : String)
    (sd ed : Option String) (hop : op ∉ registeredOps) :
    execute_rpc_action rs yd op sd ed
      = Except.ok (Result.to_dict
          { status := "ERROR", course := "course_type", result := [],
            message := "Неизвестный тип отчёта" }) := by
  simp [execute_rpc_action, execute_report_unknown rs op sd ed hop, bind, Except.bind]

/-- Witness for C5 at the concrete operation `"bogus"` (scenario B). -/
theorem unknown_operation_error_witness :
    execute_rpc_action rsDay ydLink "bogus" none none
      = Except.ok (Result.to_dict
          { status := "ERROR", course := "course_type", result := [],
            message := "Неизвестный тип отчёта" }) :=
  unknown_operation_error rsDay ydLink "bogus" none none (by decide)

/-- C4 (amended): every successfully executed request — any operation whose
report fetch and upload both succeed — produces the `Result` envelope: keys
`status`, `course`, `result`, `message` in that order, with `status="OK"`,
`course=""`, the public link as the sole result element, and
`message="Успешно"`. -/
theorem success_reply_body (rs : SpeedReport) (yd : YaDisk) (op : String)
    (sd ed : Option String) (file link : String)
    (hfetch : execute_report rs op sd ed = Except.ok file)
    (hup : yd.upload_and_get_public_download_link file = Except.ok link) :
    execute_rpc_action rs yd op sd ed
      = Except.ok (Json.obj [("status", Json.str "OK"), ("course", Json.str ""),
          ("result", Json.arr [Json.str link]), ("message", Json.str "Успешно")]) := by
  simp [execute_rpc_action, bind, Except.bind, hfetch, hup, Result.to_dict]

/-- Witness for C4 (amended) at scenario A's concrete inputs: a `"day"`
request whose fetch and upload succeed. -/
theorem success_reply_body_witness :
    execute_rpc_action rsDay ydLink "day" none none
      = Except.ok (Json.obj [("status", Json.str "OK"), ("course", Json.str ""),
          ("result", Json.arr [Json.str "https://disk/x.xlsx"]),
          ("message", Json.str "Успешно")]) :=
  success_reply_body rsDay ydLink "day" none none
    "report_from 2026-10-12.xlsx" "https://disk/x.xlsx" rfl rfl

/-- C4 counterexample: the successful day-request reply body carries the
extra `course` key — its key list is not the Response envelope's
`status`, `message`, `result`, so the reply does not match that envelope
exactly. -/
theorem success_reply_not_exact_envelope :
    execute_rpc_action rsDay ydLink "day" none none
      = Except.ok (Result.to_dict
          { status := "OK", course := "", result := ["https://disk/x.xlsx"],
            message := "Успешно" }) ∧
    jsonKeys (Result.to_dict
          { status := "OK", course := "", result := ["https://disk/x.xlsx"],
            message := "Успешно" })
      = ["status", "course", "result", "message"] ∧
    "course" ∈ jsonKeys (Result.to_dict
          { status := "OK", course := "", result := ["https://disk/x.xlsx"],
            message := "Успешно" }) ∧
    jsonKeys (Result.to_dict
          { status := "OK", course := "", result := ["https://disk/x.xlsx"],
            message := "Успешно" })
      ≠ ["status", "message", "result"] :=
  ⟨rfl, rfl, by decide, by decide⟩

/-- C7 (amended): for a registered operation the executor returns a
`Result` envelope — `OK` with the reference or `ERROR` — for every failure
of the report fetch or the upload that carries at least one exception
argument; a failure with an empty `args` tuple instead makes the handler's
`ex.args[0]` raise `IndexError`, which escapes the executor. -/
theorem execute_rpc_action_total (rs : SpeedReport) (yd : YaDisk) (op : String)
    (sd ed : Option String) (_hop : op ∈ registeredOps)
    (hfetch : ∀ e, execute_report rs op sd ed = Except.error e → e.args ≠ [])
    (hup : ∀ f e, yd.upload_and_get_public_download_link f = Except.error e → e.args ≠ []) :
    ∃ r : Result, execute_rpc_action rs yd op sd ed = Except.ok (Result.to_dict r) := by
  cases h1 : execute_report rs op sd ed with
  | error e =>
    cases he : e.args with
    | nil => exact absurd he (hfetch e h1)
    | cons a t =>
      refine ⟨{ status := "ERROR", course := "course_type", result := [], message := a }, ?_⟩
      simp [execute_rpc_action, bind, Except.bind, h1, he]
  | ok f =>
    cases h2 : yd.upload_and_get_public_download_link f with
    | error e =>
      cases he : e.args with
      | nil => exact absurd he (hup f e h2)
      | cons a t =>
        refine ⟨{ status := "ERROR", course := "course_type", result := [], message := a }, ?_⟩
        simp [execute_rpc_action, bind, Except.bind, h1, h2, he]
    | ok link =>
      refine ⟨{ status := "OK", course := "", result := [link], message := "Успешно" }, ?_⟩
      simp [execute_rpc_action, bind, Except.bind, h1, h2]

/-- Witness for C7 (amended) on the concrete day request whose collaborators
succeed. -/
theorem execute_rpc_action_total_witness :
    ∃ r : Result, execute_rpc_action rsDay ydLink "day" none none
      = Except.ok (Result.to_dict r) :=
  execute_rpc_action_total rsDay ydLink "day" none none (by decide)
    (fun e h => by
      rw [show execute_report rsDay "day" none none
            = Except.ok "report_from 2026-10-12.xlsx" from rfl] at h
      exact absurd h (by simp))
    (fun f e h => by
      rw [show ydLink.upload_and_get_public_download_link f
            = Except.ok "https://disk/x.xlsx" from rfl] at h
      exact absurd h (by simp))

/-- C7 counterexample: `"day"` is a registered operation, yet when the
underlying fetch raises an exception with an empty `args` tuple the executor
raises `IndexError("tuple index out of range")` instead of returning. -/
theorem registered_op_can_raise :
    ("day" ∈ registeredOps) ∧
    execute_rpc_action rsArgless ydLink "day" none none
      = Except.error ⟨["tuple index out of range"]⟩ :=
  ⟨by decide, rfl⟩

theorem Result.to_dict_inj {a b : Result} (h : Result.to_dict a = Result.to_dict b) :
    a = b := by
  cases a; cases b
  simp only [Result.to_dict, Json.obj.injEq, List.cons.injEq, Prod.mk.injEq,
    Json.str.injEq, Json.arr.injEq, and_true, true_and] at h
  obtain ⟨hs, hc, hr, hm⟩ := h
  simp only [Result.mk.injEq]
  exact ⟨hs, hc, List.map_injective_iff.mpr (fun x y hxy => by injection hxy) hr, hm⟩

/-- C9 (amended): an `ERROR` envelope built by the executor carries the
caught exception's first argument as its message, so it is non-empty
whenever that argument is a non-empty string — but an underlying failure
whose first argument is the empty string yields an empty `message`; the
consumer's own handler for a missing `reply_to` always publishes an `ERROR`
body whose message starts with `"Bad message "` and is therefore
non-empty. -/
theorem error_response_message_nonempty (rs : SpeedReport) (yd : YaDisk) (op : String)
    (sd ed : Option String) :
    ((∀ e, execute_report rs op sd ed = Except.error e → e.args.head? ≠ some "") →
     (∀ f e, yd.upload_and_get_public_download_link f = Except.error e →
        e.args.head? ≠ some "") →
     ∀ r : Result, execute_rpc_action rs yd op sd ed = Except.ok (Result.to_dict r) →
       r.status = "ERROR" → r.message ≠ "") ∧
    (∀ (m : IncomingMessage) (pr : Option Exc), m.reply_to = none →
      ∀ pc ∈ (processMessage m pr).pubCalls,
        pc.body = Response.to_dict
          { status := "ERROR", message := "Bad message " ++ m.msgRepr, result := [] } ∧
        "Bad message " ++ m.msgRepr ≠ "") := by
  constructor
  · intro hfetch hup r hr hstatus
    cases h1 : execute_report rs op sd ed with
    | ok f =>
      cases h2 : yd.upload_and_get_public_download_link f with
      | ok link =>
        have hev : execute_rpc_action rs yd op sd ed
            = Except.ok (Result.to_dict
                { status := "OK", course := "", result := [link], message := "Успешно" }) := by
          simp [execute_rpc_action, bind, Except.bind, h1, h2]
        rw [hev] at hr
        have hre := Result.to_dict_inj (Except.ok.inj hr)
        rw [← hre] at hstatus
        exact absurd hstatus (by simp)
      | error e =>
        cases he : e.args with
        | nil =>
          have hev : execute_rpc_action rs yd op sd ed
              = Except.error ⟨["tuple index out of range"]⟩ := by
            simp [execute_rpc_action, bind, Except.bind, h1, h2, he]
          rw [hev] at hr
          exact absurd hr (by simp)
        | cons a t =>
          have ha : a ≠ "" := by
            have hh := hup f e h2
            rw [he] at hh
            simpa using hh
          have hev : execute_rpc_action rs yd op sd ed
              = Except.ok (Result.to_dict
                  { status := "ERROR", course := "course_type", result := [], message := a }) := by
            simp [execute_rpc_action, bind, Except.bind, h1, h2, he]
          rw [hev] at hr
          have hre := Result.to_dict_inj (Except.ok.inj hr)
          rw [← hre]
          exact ha
    | error e =>
      cases he : e.args with
      | nil =>
        have hev : execute_rpc_action rs yd op sd ed
            = Except.error ⟨["tuple index out of range"]⟩ := by
          simp [execute_rpc_action, bind, Except.bind, h1, he]
        rw [hev] at hr
        exact absurd hr (by simp)
      | cons a t =>
        have ha : a ≠ "" := by
          have hh := hfetch e h1
          rw [he] at hh
          simpa using hh
        have hev : execute_rpc_action rs yd op sd ed
            = Except.ok (Result.to_dict
                { status := "ERROR", course := "course_type", result := [], message := a }) := by
          simp [execute_rpc_action, bind, Except.bind, h1, he]
        rw [hev] at hr
        have hre := Result.to_dict_inj (Except.ok.inj hr)
        rw [← hre]
        exact ha
  · intro m pr hnone pc hpc
    have hcalls : (processMessage m pr).pubCalls
        = [⟨m.reply_to, m.correlation_id,
            Response.to_dict
              { status := "ERROR", message := "Bad message " ++ m.msgRepr, result := [] }⟩] := by
      cases pr <;> simp [processMessage, tryBlock, hnone, strOfExc]
    rw [hcalls] at hpc
    simp only [List.mem_singleton] at hpc
    subst hpc
    refine ⟨rfl, ?_⟩
    intro h
    have hlen := congrArg String.length h
    rw [String.length_append] at hlen
    have h12 : "Bad message ".length = 12 := by decide
    have h0 : String.length "" = 0 := by decide
    omega

/-- Witness for C9 (amended): a day request whose upload fails with the
non-empty message `"boom"` yields an `ERROR` envelope whose message is
non-empty. -/
theorem error_response_message_nonempty_witness :
    Result.message
      { status := "ERROR", course := "course_type", result := [], message := "boom" } ≠ "" :=
  (error_response_message_nonempty rsDay ydBoom "day" none none).1
    (fun e h => by
      rw [show execute_report rsDay "day" none none
            = Except.ok "report_from 2026-10-12.xlsx" from rfl] at h
      exact absurd h (by simp))
    (fun f e h => by
      rw [show ydBoom.upload_and_get_public_download_link f
            = Except.error ⟨["boom"]⟩ from rfl] at h
      rw [← Except.error.inj h]
      simp)
    { status := "ERROR", course := "course_type", result := [], message := "boom" }
    rfl rfl

/-- C9 counterexample: when the upload fails with an exception whose sole
argument is the empty string, the executor produces an `ERROR` envelope
whose `message` is empty — refuting "status ERROR always carries a
non-empty message" for every exception that can arise during execution. -/
theorem error_response_empty_message :
    execute_rpc_action rsDay ydEmptyArg "day" none none
      = Except.ok (Result.to_dict
          { status := "ERROR", course := "course_type", result := [], message := "" }) ∧
    Result.status
      { status := "ERROR", course := "course_type", result := [], message := "" } = "ERROR" ∧
    Result.message
      { status := "ERROR", course := "course_type", result := [], message := "" } = "" :=
  ⟨rfl, rfl, rfl⟩

/-! The Response wire round trip. -/

theorem decodeStrings_map (l : List String) :
    decodeStrings (l.map Json.str) = some l := by
  induction l with
  | nil => rfl
  | cons a t ih => simp [decodeStrings, ih]

/-- C8: encoding any `Response` whose status is `"OK"` or `"ERROR"` to its
wire value and decoding it back yields the original `Response`, for every
message string and every result list (including the empty list). -/
theorem response_roundtrip (s m : String) (res : List String)
    (hs : s = "OK" ∨ s = "ERROR") :
    decodeResponse (Response.to_dict { status := s, message := m, result := res })
      = some { status := s, message := m, result := res } := by
  rcases hs with rfl | rfl <;>
    simp [decodeResponse, Response.to_dict, List.lookup, decodeStrings_map]

/-- Witness for C8 at a concrete `ERROR` Response with an empty result. -/
theorem response_roundtrip_witness :
    decodeResponse (Response.to_dict { status := "ERROR", message := "Успешно", result := [] })
      = some { status := "ERROR", message := "Успешно", result := [] } :=
  response_roundtrip "ERROR" "Успешно" [] (Or.inr rfl)

end RpcSpeed
